import Mathlib

/-!
Verification development for the codex-webstrap bridge/dispatch layer.

Each definition is a shallow embedding of one piece of the repository's
JavaScript source:

* `IpcUds.*`        — src/ipc-uds.mjs (frame codec, `FrameDecoder`, `UdsIpcClient`)
* `AppServer.*`     — the `AppServerManager` subprocess RPC client
* `RouterBuckets.*` — src/message-router.mjs handling-bucket constants and the
                      `_handleViewMessage` dispatch switch's case labels
* `BunPtyBridge.*`  — the `TerminalRegistry` of src/bun-pty-bridge.mjs
* `RouterTerm.*`    — the `TerminalRegistry` of src/message-router.mjs

Buffers are modelled as `List Nat` of byte values, JavaScript `Map`s as
association lists, JavaScript `Set`s as duplicate-free lists, and promise
settlement as an append-only list of `SettleEvent`s (a JS promise settles at
most once; each reject/resolve call site in the modelled code first removes
the pending entry, so settlement events are in bijection with those calls).
Timers are modelled by pending-map membership: in the source every removal of
a pending entry is paired with `clearTimeout`, and a cleared timer never
fires, so "the deadline timer of request id is live" coincides with "id is in
the pending map".
-/

namespace RouterBuckets

/-- src/message-router.mjs `FULL_HANDLING_BUCKET` (source order). -/
def FULL_HANDLING_BUCKET : List String :=
  ["ready", "fetch", "cancel-fetch", "fetch-stream", "cancel-fetch-stream",
   "mcp-request", "mcp-response", "mcp-notification", "terminal-create",
   "terminal-attach", "terminal-write", "terminal-resize", "terminal-close",
   "persisted-atom-sync-request", "persisted-atom-update", "persisted-atom-reset",
   "shared-object-subscribe", "shared-object-set", "shared-object-unsubscribe",
   "thread-archived", "thread-unarchived", "archive-thread", "unarchive-thread",
   "thread-stream-state-changed", "thread-overlay-proxy-start-turn-request",
   "thread-overlay-proxy-start-turn-response", "thread-overlay-proxy-interrupt-request",
   "thread-overlay-proxy-interrupt-response", "worker-request", "worker-request-cancel",
   "set-telemetry-user", "view-focused"]

/-- src/message-router.mjs `BROWSER_EQUIVALENT_BUCKET` (source order). -/
def BROWSER_EQUIVALENT_BUCKET : List String :=
  ["open-in-browser", "show-diff", "show-plan-summary", "navigate-in-new-editor-tab"]

/-- src/message-router.mjs `GRACEFUL_UNSUPPORTED_BUCKET` (source order).
`NATIVE_UNSUPPORTED` is `new Set(GRACEFUL_UNSUPPORTED_BUCKET)`, consulted by
the dispatch switch's `default` branch. -/
def GRACEFUL_UNSUPPORTED_BUCKET : List String :=
  ["install-wsl", "install-app-update", "open-extension-settings",
   "open-vscode-command", "open-keyboard-shortcuts", "open-debug-window",
   "electron-request-microphone-permission"]

/-- The explicit `case` labels of the `switch (type)` in
`MessageRouter._handleViewMessage` (src/message-router.mjs, source order). -/
def viewMessageCaseLabels : List String :=
  ["ready", "electron-window-focus-request", "log-message", "fetch",
   "cancel-fetch", "fetch-stream", "cancel-fetch-stream", "mcp-request",
   "mcp-response", "mcp-notification", "terminal-create", "terminal-attach",
   "terminal-write", "terminal-resize", "terminal-close",
   "persisted-atom-sync-request", "persisted-atom-update", "persisted-atom-reset",
   "shared-object-subscribe", "shared-object-set", "shared-object-unsubscribe",
   "archive-thread", "unarchive-thread", "thread-archived", "thread-unarchived",
   "thread-stream-state-changed", "thread-overlay-proxy-start-turn-response",
   "thread-overlay-proxy-interrupt-response", "set-telemetry-user", "view-focused",
   "thread-overlay-proxy-start-turn-request", "thread-overlay-proxy-interrupt-request",
   "electron-onboarding-skip-workspace", "electron-update-workspace-root-options",
   "electron-set-active-workspace-root", "worker-request", "worker-request-cancel",
   "open-in-browser", "show-diff", "show-plan-summary",
   "navigate-in-new-editor-tab", "electron-set-badge-count",
   "power-save-blocker-set", "desktop-notification-show",
   "desktop-notification-hide", "show-context-menu", "inbox-item-set-read-state",
   "codex-app-server-restart", "open-thread-overlay", "electron-set-window-mode",
   "electron-pick-workspace-root-option", "electron-app-state-snapshot-trigger",
   "update-diff-if-open"]

/-- A message type is handled by the dispatch switch when it is an explicit
case label, or when the `default` branch recognises it via
`NATIVE_UNSUPPORTED` (the graceful-unsupported set). -/
def handledByDispatch (t : String) : Prop :=
  t ∈ viewMessageCaseLabels ∨ t ∈ GRACEFUL_UNSUPPORTED_BUCKET

instance (t : String) : Decidable (handledByDispatch t) := by
  unfold handledByDispatch; infer_instance

/-- Membership count of `t` over the three buckets. -/
def bucketCount (t : String) : Nat :=
  (if t ∈ FULL_HANDLING_BUCKET then 1 else 0) +
  (if t ∈ BROWSER_EQUIVALENT_BUCKET then 1 else 0) +
  (if t ∈ GRACEFUL_UNSUPPORTED_BUCKET then 1 else 0)

end RouterBuckets

namespace BunPtyBridge

/-- Backend execution mode of a terminal session
(src/bun-pty-bridge.mjs `TerminalRegistry._spawnRuntime`). -/
inductive Mode where
  | bunPty
  | pythonPty
  | pipe
deriving DecidableEq, Repr

/-- One entry of `TerminalRegistry.sessions`. Listener connections are the
JS `Set` of attached websockets (duplicate-free list); `procKilled` mirrors
`session.proc.killed`; `stdinDestroyed` mirrors `session.proc.stdin` being
absent or destroyed. -/
structure Session where
  listeners : List Nat
  mode : Mode
  procKilled : Bool
  stdinDestroyed : Bool
deriving DecidableEq, Repr

/-- Observable side effects of a registry operation: a newline-delimited JSON
command written to a bun-pty bridge subprocess, raw data written to a plain
subprocess stdin, a `proc.kill()` call, or a `logger.debug` line. -/
inductive Out where
  | procCmd (sessionId : String) (cmd : String)
  | procStdin (sessionId : String) (data : String)
  | kill (sessionId : String)
  | debugLog (msg : String)
deriving DecidableEq, Repr

/-- `TerminalRegistry` state: the `sessions` map as an association list. -/
structure TerminalRegistry where
  sessions : List (String × Session)
deriving DecidableEq, Repr

/-- `TerminalRegistry.write(sessionId, data)`: unknown id is a no-op;
bun-pty sessions get a `{type:"write"}` command; otherwise raw data goes to
the child's stdin unless it is destroyed. -/
def TerminalRegistry.write (r : TerminalRegistry) (sessionId : String)
    (data : String) : TerminalRegistry × List Out :=
  match r.sessions.lookup sessionId with
  | none => (r, [])
  | some session =>
    if session.mode = Mode.bunPty then
      (r, [Out.procCmd sessionId "write"])
    else if session.stdinDestroyed then
      (r, [])
    else
      (r, [Out.procStdin sessionId data])

/-- `TerminalRegistry.resize(sessionId, cols, rows)`: unknown id is a no-op;
bun-pty sessions get a `{type:"resize"}` command; non-PTY sessions log that
the resize is ignored; python-pty sessions do nothing. -/
def TerminalRegistry.resize (r : TerminalRegistry) (sessionId : String) :
    TerminalRegistry × List Out :=
  match r.sessions.lookup sessionId with
  | none => (r, [])
  | some session =>
    if session.mode = Mode.bunPty then
      (r, [Out.procCmd sessionId "resize"])
    else if session.mode ≠ Mode.pythonPty then
      (r, [Out.debugLog "Terminal resize ignored (non-PTY mode)"])
    else
      (r, [])

/-- The effects of `TerminalRegistry.close` on a looked-up session: bun-pty
sessions are sent a `{type:"close"}` command first; then the backend process
is killed unless already dead. -/
def closeOutputs (sessionId : String) (session : Session) : List Out :=
  (if session.mode = Mode.bunPty then [Out.procCmd sessionId "close"] else []) ++
  (if session.procKilled then [] else [Out.kill sessionId])

/-- `TerminalRegistry.close(sessionId)`: unknown id is a no-op; otherwise the
backend process is killed (after a close command in bun-pty mode) and the
session is removed from the map. -/
def TerminalRegistry.close (r : TerminalRegistry) (sessionId : String) :
    TerminalRegistry × List Out :=
  match r.sessions.lookup sessionId with
  | none => (r, [])
  | some session =>
    (⟨r.sessions.filter (fun e => e.1 ≠ sessionId)⟩, closeOutputs sessionId session)

/-- `TerminalRegistry.removeListener(ws)`: detach `ws` from every session's
listener set, closing (kill + remove) any session whose listener set becomes
empty. -/
def TerminalRegistry.removeListener (r : TerminalRegistry) (ws : Nat) :
    TerminalRegistry × List Out :=
  let folded := r.sessions.foldl
    (fun (acc : List (String × Session) × List Out) e =>
      let remaining := e.2.listeners.erase ws
      if remaining = [] then
        (acc.1, acc.2 ++ closeOutputs e.1 e.2)
      else
        (acc.1 ++ [(e.1, { e.2 with listeners := remaining })], acc.2))
    ([], [])
  (⟨folded.1⟩, folded.2)

end BunPtyBridge

namespace RouterTerm

/-- One entry of the src/message-router.mjs `TerminalRegistry.sessions` map
(this registry has no PTY modes: plain `child_process.spawn` pipes only). -/
structure Session where
  listeners : List Nat
  procKilled : Bool
  stdinDestroyed : Bool
deriving DecidableEq, Repr

/-- src/message-router.mjs `TerminalRegistry` state. -/
structure TerminalRegistry where
  sessions : List (String × Session)
deriving DecidableEq, Repr

/-- `write(sessionId, data)`: returns without effect when the session is
unknown or its stdin is gone; otherwise writes the data to the child. -/
def TerminalRegistry.write (r : TerminalRegistry) (sessionId : String)
    (data : String) : TerminalRegistry × List BunPtyBridge.Out :=
  match r.sessions.lookup sessionId with
  | none => (r, [])
  | some session =>
    if session.stdinDestroyed then (r, [])
    else (r, [BunPtyBridge.Out.procStdin sessionId data])

/-- `resize(sessionId)`: returns without effect when the session is unknown;
otherwise only logs that resize is ignored in non-PTY mode. -/
def TerminalRegistry.resize (r : TerminalRegistry) (sessionId : String) :
    TerminalRegistry × List BunPtyBridge.Out :=
  if (r.sessions.lookup sessionId).isSome then
    (r, [BunPtyBridge.Out.debugLog "Terminal resize ignored (non-PTY mode)"])
  else
    (r, [])

/-- `close(sessionId)`: unknown id is a no-op; otherwise the process is
killed unless already dead and the session is removed from the map. -/
def TerminalRegistry.close (r : TerminalRegistry) (sessionId : String) :
    TerminalRegistry × List BunPtyBridge.Out :=
  match r.sessions.lookup sessionId with
  | none => (r, [])
  | some session =>
    (⟨r.sessions.filter (fun e => e.1 ≠ sessionId)⟩,
      if session.procKilled then [] else [BunPtyBridge.Out.kill sessionId])

end RouterTerm

/-- Settlement of a correlated request's promise: `resolved` models
`pending.resolve(...)`, `rejected` models `pending.reject(new Error(msg))`
(the stored `msg` is the error's message; interpolated suffixes of the source
messages are dropped). -/
inductive SettleEvent where
  | resolved (id : Nat)
  | rejected (id : Nat) (msg : String)
deriving DecidableEq, Repr

/-- The request id a settlement event belongs to. -/
def SettleEvent.reqId : SettleEvent → Nat
  | .resolved id => id
  | .rejected id _ => id

/-- All settlement events recorded for request `id`, in order. -/
def settlesFor (id : Nat) (l : List SettleEvent) : List SettleEvent :=
  l.filter (fun e => e.reqId = id)

namespace IpcUds

/-- `UdsIpcClient` state (src/ipc-uds.mjs). `pending` holds the ids of the
pending map (each entry owning a live deadline timer); `settled` is the
promise-settlement history; `socket`/`reconnectTimer` model handle presence;
`reconnectsScheduled` counts how many times a reconnect attempt has been
scheduled; `log` records `logger` calls made in the modelled paths (none of
the modelled paths log). -/
structure UdsIpcClient where
  pending : List Nat
  settled : List SettleEvent
  connected : Bool
  initialized : Bool
  stopped : Bool
  socket : Bool
  reconnectTimer : Bool
  reconnectsScheduled : Nat
  log : List String
deriving DecidableEq, Repr

/-- A fresh client, as built by the `UdsIpcClient` constructor. -/
def UdsIpcClient.init : UdsIpcClient :=
  ⟨[], [], false, false, false, false, false, 0, []⟩

/-- `UdsIpcClient._rejectAllPending(error)`: clear every deadline timer,
reject every pending future with the one shared error, clear the map. -/
def UdsIpcClient.rejectAllPending (s : UdsIpcClient) (msg : String) : UdsIpcClient :=
  { s with
    pending := [],
    settled := s.settled ++ s.pending.map (fun id => SettleEvent.rejected id msg) }

/-- `UdsIpcClient._scheduleReconnect()`: the single in-flight guard — return
immediately when a reconnect timer already exists or the client is stopped;
otherwise arm the timer (counted in `reconnectsScheduled`). -/
def UdsIpcClient.scheduleReconnect (s : UdsIpcClient) : UdsIpcClient :=
  if s.reconnectTimer || s.stopped then s
  else { s with reconnectTimer := true, reconnectsScheduled := s.reconnectsScheduled + 1 }

/-- Events driving `UdsIpcClient`. `sendRequest id` is a `sendRequest` call
whose `_write` succeeds; `sendRequestWriteFails id msg` is one whose `_write`
throws an error with message `msg`; `timeoutFires id` is the deadline timer
of request `id` firing (only a live — uncleared — timer can fire, which the
step function renders as pending-map membership); `socketCloses` is the
socket `close` event (a socket `error` event only logs and is always
followed by `close`, where all failure handling lives). -/
inductive Ev where
  | sendRequest (id : Nat)
  | sendRequestWriteFails (id : Nat) (msg : String)
  | responseArrives (id : Nat)
  | timeoutFires (id : Nat)
  | socketCloses
  | reconnectTimerFires
  | stop
deriving DecidableEq, Repr

/-- One step of the `UdsIpcClient` event loop, from src/ipc-uds.mjs:
* `sendRequest`: arm the deadline timer and store the pending entry.
* `sendRequestWriteFails`: the `catch` around `_write` — clear the timer,
  delete the just-added entry, reject with the write error.
* `responseArrives` (`_handleIncomingMessage`, `"response"` branch): a
  matching pending entry is cleared, deleted and resolved; with no matching
  entry the message is discarded with no further effect.
* `timeoutFires`: the timer callback deletes the entry and rejects with the
  timeout error.
* `socketCloses`: the `close` handler resets connection state, rejects all
  pending with one shared error, then schedules a reconnect unless stopped.
* `reconnectTimerFires`: the timer clears itself and `_connectNow` runs.
* `stop`: set `stopped`, clear the reconnect timer, reject all pending,
  destroy the socket, reset flags. -/
def UdsIpcClient.step (s : UdsIpcClient) : Ev → UdsIpcClient
  | .sendRequest id => { s with pending := s.pending ++ [id] }
  | .sendRequestWriteFails id msg =>
    let s1 := { s with pending := s.pending ++ [id] }
    { s1 with
      pending := s1.pending.erase id,
      settled := s1.settled ++ [SettleEvent.rejected id msg] }
  | .responseArrives id =>
    if id ∈ s.pending then
      { s with
        pending := s.pending.erase id,
        settled := s.settled ++ [SettleEvent.resolved id] }
    else s
  | .timeoutFires id =>
    if id ∈ s.pending then
      { s with
        pending := s.pending.erase id,
        settled := s.settled ++ [SettleEvent.rejected id "IPC request timeout"] }
    else s
  | .socketCloses =>
    let s1 := { s with connected := false, initialized := false, socket := false }
    let s2 := s1.rejectAllPending "ipc socket closed"
    if s2.stopped then s2 else s2.scheduleReconnect
  | .reconnectTimerFires =>
    if s.reconnectTimer then { s with reconnectTimer := false } else s
  | .stop =>
    let s1 := { s with stopped := true, reconnectTimer := false }
    let s2 := s1.rejectAllPending "ipc client stopped"
    { s2 with socket := false, connected := false, initialized := false }

/-- Pending-map invariant: ids are pairwise distinct (fresh UUIDs / a
monotone counter) and a pending id's promise is still unsettled. -/
def UdsIpcClient.Inv (s : UdsIpcClient) : Prop :=
  s.pending.Nodup ∧ ∀ id ∈ s.pending, settlesFor id s.settled = []

instance (s : UdsIpcClient) : Decidable s.Inv := by
  unfold UdsIpcClient.Inv; infer_instance

end IpcUds

namespace AppServer

/-- `AppServerManager` state (the subprocess RPC client). `proc` models a
live child-process handle; `log` records `logger` calls made in the modelled
paths (only the exit handler logs). -/
structure AppServerManager where
  pending : List Nat
  settled : List SettleEvent
  connected : Bool
  initialized : Bool
  stopped : Bool
  proc : Bool
  stdoutBuffer : String
  log : List String
deriving DecidableEq, Repr

/-- The shape of `AppServerManager.getState()` (the `wsUrl` field is the
constant `null` in the source and is omitted). -/
structure GetState where
  connected : Bool
  initialized : Bool
  transportKind : String
deriving DecidableEq, Repr

/-- `AppServerManager.getState()`. -/
def AppServerManager.getState (s : AppServerManager) : GetState :=
  ⟨s.connected, s.initialized, "stdio"⟩

/-- `AppServerManager._rejectAllPending(error)`. -/
def AppServerManager.rejectAllPending (s : AppServerManager) (msg : String) :
    AppServerManager :=
  { s with
    pending := [],
    settled := s.settled ++ s.pending.map (fun id => SettleEvent.rejected id msg) }

/-- Events driving `AppServerManager`. `startSpawns` is a `start()` call
that reaches `_spawnStdioProcess` (the only place a process is created);
`processExits` is the child's `exit` event. -/
inductive Ev where
  | sendRequest (id : Nat)
  | sendRequestWriteFails (id : Nat) (msg : String)
  | responseArrives (id : Nat)
  | timeoutFires (id : Nat)
  | processExits
  | stop
  | startSpawns
deriving DecidableEq, Repr

/-- One step of the `AppServerManager` event loop:
* `sendRequest` / `sendRequestWriteFails`: as in `UdsIpcClient.step`, with
  the `catch` around `_sendJson` undoing the timer and the pending entry.
* `responseArrives` (`_handleIncoming` with a matching numeric id): clear
  the timer, delete the entry, resolve; an id with no pending entry falls
  through (a response carries no `method`) and is discarded.
* `timeoutFires`: delete the entry and reject with the timeout error.
* `processExits`: the `proc.on("exit")` handler — log a warning, drop the
  process handle, reset connection state and the stdout line buffer, reject
  all pending with the process-exited error, emit `connection-changed`.
* `stop`: reject all pending with the stopped error, kill the process,
  reset state.
* `startSpawns`: `_spawnStdioProcess` succeeding — a live process handle,
  connected but not yet initialized. -/
def AppServerManager.step (s : AppServerManager) : Ev → AppServerManager
  | .sendRequest id => { s with pending := s.pending ++ [id] }
  | .sendRequestWriteFails id msg =>
    let s1 := { s with pending := s.pending ++ [id] }
    { s1 with
      pending := s1.pending.erase id,
      settled := s1.settled ++ [SettleEvent.rejected id msg] }
  | .responseArrives id =>
    if id ∈ s.pending then
      { s with
        pending := s.pending.erase id,
        settled := s.settled ++ [SettleEvent.resolved id] }
    else s
  | .timeoutFires id =>
    if id ∈ s.pending then
      { s with
        pending := s.pending.erase id,
        settled := s.settled ++ [SettleEvent.rejected id "app-server request timeout"] }
    else s
  | .processExits =>
    let s1 := { s with
      log := s.log ++ ["app-server exited"],
      proc := false, connected := false, initialized := false,
      stdoutBuffer := "" }
    s1.rejectAllPending "App server process exited"
  | .stop =>
    let s1 := { s with stopped := true }
    let s2 := s1.rejectAllPending "App server stopped"
    { s2 with
      proc := false, connected := false, initialized := false,
      stdoutBuffer := "" }
  | .startSpawns =>
    { s with stopped := false, proc := true, connected := true, initialized := false }

/-- Pending-map invariant, as for the Bus Client. -/
def AppServerManager.Inv (s : AppServerManager) : Prop :=
  s.pending.Nodup ∧ ∀ id ∈ s.pending, settlesFor id s.settled = []

instance (s : AppServerManager) : Decidable s.Inv := by
  unfold AppServerManager.Inv; infer_instance

end AppServer

namespace IpcUds

/-- src/ipc-uds.mjs `MAX_IPC_FRAME_BYTES` (256 MiB). -/
def MAX_IPC_FRAME_BYTES : Nat := 256 * 1024 * 1024

/-- src/ipc-uds.mjs `MAX_IPC_BUFFER_BYTES` (512 MiB). -/
def MAX_IPC_BUFFER_BYTES : Nat := 512 * 1024 * 1024

/-- `frame.writeUInt32LE(n, 0)`: the four little-endian bytes of `n`. -/
def writeUInt32LE (n : Nat) : List Nat :=
  [n % 256, n / 256 % 256, n / 65536 % 256, n / 16777216 % 256]

/-- `buffer.readUInt32LE(0)` on first bytes `b0 b1 b2 b3`. -/
def readUInt32LE (b0 b1 b2 b3 : Nat) : Nat :=
  b0 + b1 * 256 + b2 * 65536 + b3 * 16777216

/-- `encodeFrame(value)`: 4-byte little-endian length prefix followed by the
serialized payload bytes. `stringify` abstracts `JSON.stringify` composed
with UTF-8 encoding (`Buffer.from(json, "utf8")`); the decoder is
parametrised by the matching abstract `JSON.parse`. -/
def encodeFrame {α : Type} (stringify : α → List Nat) (v : α) : List Nat :=
  writeUInt32LE (stringify v).length ++ stringify v

/-- `FrameDecoder` instance state: the undecoded `buffer` and
`currentFrameLength` (null between frames). -/
structure FrameDecoderState where
  buffer : List Nat
  currentFrameLength : Option Nat
deriving DecidableEq, Repr

/-- A freshly constructed `FrameDecoder`: empty buffer, no frame length. -/
def FrameDecoderState.init : FrameDecoderState := ⟨[], none⟩

/-- Fuel that strictly decreases along the decoder's `for (;;)` loop:
reading a prefix consumes 4 bytes, consuming a payload moves from the
length-known phase back to the length-unknown phase. -/
def decodeFuel : List Nat → Option Nat → Nat
  | buf, none => buf.length + 2
  | buf, some _ => buf.length + 3

/-- The decoder's `for (;;)` loop (`FrameDecoder.push` after the chunk has
been concatenated onto the buffer), phase by phase:
with no current frame length, fewer than 4 buffered bytes break out of the
loop; otherwise the length is read, the prefix discarded, and a length above
`maxFrameBytes` throws. With a known length, fewer buffered bytes than the
length break out; otherwise the payload is split off, parsed (a parse
failure throws an invalid-JSON error), and the parsed message collected.
`fuel` is a termination device only: `decodeFuel` is always sufficient
(`pushLoop_fuel_succ`). -/
def pushLoop {α : Type} (parse : List Nat → Option α) (maxFrameBytes : Nat) :
    Nat → List Nat → Option Nat → Except String (List α × List Nat × Option Nat)
  | 0, buf, cur => .ok ([], buf, cur)
  | fuel + 1, buf, none =>
    match buf with
    | b0 :: b1 :: b2 :: b3 :: rest =>
      if readUInt32LE b0 b1 b2 b3 > maxFrameBytes then
        .error "IPC frame exceeded limit"
      else
        pushLoop parse maxFrameBytes fuel rest (some (readUInt32LE b0 b1 b2 b3))
    | _ => .ok ([], buf, none)
  | fuel + 1, buf, some len =>
    if buf.length < len then
      .ok ([], buf, some len)
    else
      match parse (buf.take len) with
      | none => .error "Invalid IPC JSON frame"
      | some v =>
        match pushLoop parse maxFrameBytes fuel (buf.drop len) none with
        | .ok (ms, b, c) => .ok (v :: ms, b, c)
        | .error e => .error e

/-- The decoder loop run with its canonical (sufficient) fuel. -/
def runLoop {α : Type} (parse : List Nat → Option α) (maxFrameBytes : Nat)
    (buf : List Nat) (cur : Option Nat) :
    Except String (List α × List Nat × Option Nat) :=
  pushLoop parse maxFrameBytes (decodeFuel buf cur) buf cur

/-- `FrameDecoder.push(chunk)`: an empty chunk returns no messages; a chunk
that would push the buffered byte count past `maxBufferBytes` throws before
the buffer is touched; otherwise the chunk is appended to the buffer and
the decode loop runs, returning the decoded messages and the decoder's
leftover state. -/
def FrameDecoder.push {α : Type} (parse : List Nat → Option α)
    (maxFrameBytes maxBufferBytes : Nat) (st : FrameDecoderState)
    (chunk : List Nat) : Except String (List α × FrameDecoderState) :=
  if chunk.length = 0 then .ok ([], st)
  else if maxBufferBytes < st.buffer.length + chunk.length then
    .error "IPC buffer exceeded limit"
  else
    match runLoop parse maxFrameBytes (st.buffer ++ chunk) st.currentFrameLength with
    | .ok (ms, b, c) => .ok (ms, ⟨b, c⟩)
    | .error e => .error e

/-- Successive `push` calls, one per delivered chunk, collecting all decoded
messages in order. -/
def FrameDecoder.pushAll {α : Type} (parse : List Nat → Option α)
    (maxFrameBytes maxBufferBytes : Nat) :
    FrameDecoderState → List (List Nat) → Except String (List α × FrameDecoderState)
  | st, [] => .ok ([], st)
  | st, c :: cs =>
    match FrameDecoder.push parse maxFrameBytes maxBufferBytes st c with
    | .error e => .error e
    | .ok (ms, st1) =>
      match FrameDecoder.pushAll parse maxFrameBytes maxBufferBytes st1 cs with
      | .error e => .error e
      | .ok (ms2, st2) => .ok (ms ++ ms2, st2)

/-- A decoder state that has broken out of the decode loop: it cannot make
progress without more bytes. Every state a `push` leaves behind is of this
shape, as is a fresh decoder. -/
def Quies : List Nat → Option Nat → Prop
  | buf, none => buf.length < 4
  | buf, some len => buf.length < len

instance (buf : List Nat) (cur : Option Nat) : Decidable (Quies buf cur) := by
  cases cur <;> (unfold Quies; infer_instance)

end IpcUds

/-- C3 counterexample: the claim says every message type the Router's
dispatch switch handles is a member of exactly one of the three buckets, but
the switch has an explicit `case "log-message"` while `log-message` belongs
to none of the three bucket constants (`bucketCount` is `0`, not `1`). -/
theorem c3_counterexample :
    RouterBuckets.handledByDispatch "log-message" ∧
    RouterBuckets.bucketCount "log-message" = 0 := by
  decide

/-- C3 (amended): the three bucket constants are pairwise disjoint, every
bucket member is handled by the Router's dispatch switch (full-handling and
browser-equivalent types as explicit case labels, graceful-unsupported types
via the `NATIVE_UNSUPPORTED` check in the `default` branch, so each is
handled according to its unique bucket) — but the converse direction of the
original claim fails: the switch additionally handles message types that
belong to no bucket (see the counterexample). -/
theorem c3_buckets_disjoint_and_handled :
    (∀ t ∈ RouterBuckets.FULL_HANDLING_BUCKET,
        t ∉ RouterBuckets.BROWSER_EQUIVALENT_BUCKET ∧
        t ∉ RouterBuckets.GRACEFUL_UNSUPPORTED_BUCKET) ∧
    (∀ t ∈ RouterBuckets.BROWSER_EQUIVALENT_BUCKET,
        t ∉ RouterBuckets.GRACEFUL_UNSUPPORTED_BUCKET) ∧
    (∀ t ∈ RouterBuckets.FULL_HANDLING_BUCKET,
        t ∈ RouterBuckets.viewMessageCaseLabels ∧ RouterBuckets.bucketCount t = 1) ∧
    (∀ t ∈ RouterBuckets.BROWSER_EQUIVALENT_BUCKET,
        t ∈ RouterBuckets.viewMessageCaseLabels ∧ RouterBuckets.bucketCount t = 1) ∧
    (∀ t ∈ RouterBuckets.GRACEFUL_UNSUPPORTED_BUCKET,
        t ∉ RouterBuckets.viewMessageCaseLabels ∧ RouterBuckets.handledByDispatch t ∧
        RouterBuckets.bucketCount t = 1) := by
  decide

/-- C7: for a terminal session with two attached listener connections,
`removeListener` of one keeps the session in the registry (with the other
listener) and performs no kill; `removeListener` of the last remaining
listener kills the backend process and removes the session id from the map. -/
theorem c7_last_listener_detach_closes_session
    (sid : String) (sess : BunPtyBridge.Session) (a b : Nat)
    (hab : a ≠ b) (hl : sess.listeners = [a, b]) (hk : sess.procKilled = false) :
    (BunPtyBridge.TerminalRegistry.removeListener ⟨[(sid, sess)]⟩ a).1.sessions
        = [(sid, { sess with listeners := [b] })]
    ∧ (BunPtyBridge.TerminalRegistry.removeListener ⟨[(sid, sess)]⟩ a).2 = []
    ∧ (BunPtyBridge.TerminalRegistry.removeListener
        (BunPtyBridge.TerminalRegistry.removeListener ⟨[(sid, sess)]⟩ a).1 b).1.sessions = []
    ∧ BunPtyBridge.Out.kill sid ∈
        (BunPtyBridge.TerminalRegistry.removeListener
          (BunPtyBridge.TerminalRegistry.removeListener ⟨[(sid, sess)]⟩ a).1 b).2 := by
  simp [BunPtyBridge.TerminalRegistry.removeListener,
    BunPtyBridge.closeOutputs, hl, hk, hab]

/-- C7 witness: concrete two-listener session. -/
theorem c7_witness :
    ((1 : Nat) ≠ 2 ∧
      (BunPtyBridge.Session.mk [1, 2] BunPtyBridge.Mode.pipe false false).listeners = [1, 2] ∧
      (BunPtyBridge.Session.mk [1, 2] BunPtyBridge.Mode.pipe false false).procKilled = false) ∧
    BunPtyBridge.Out.kill "s" ∈
      (BunPtyBridge.TerminalRegistry.removeListener
        (BunPtyBridge.TerminalRegistry.removeListener
          ⟨[("s", BunPtyBridge.Session.mk [1, 2] BunPtyBridge.Mode.pipe false false)]⟩ 1).1
        2).2 :=
  ⟨⟨by decide, rfl, rfl⟩,
    (c7_last_listener_detach_closes_session "s"
      (BunPtyBridge.Session.mk [1, 2] BunPtyBridge.Mode.pipe false false)
      1 2 (by decide) rfl rfl).2.2.2⟩

/-- C8: `write`, `resize`, and `close` on a session id absent from the
session map are no-ops in both terminal registries: the functions are total
(never throw), send nothing to any listener or process, and leave the
registry state unchanged. -/
theorem c8_unknown_session_id_noop
    (rb : BunPtyBridge.TerminalRegistry) (rr : RouterTerm.TerminalRegistry)
    (sid data : String)
    (hb : rb.sessions.lookup sid = none)
    (hr : rr.sessions.lookup sid = none) :
    rb.write sid data = (rb, []) ∧ rb.resize sid = (rb, []) ∧ rb.close sid = (rb, []) ∧
    rr.write sid data = (rr, []) ∧ rr.resize sid = (rr, []) ∧ rr.close sid = (rr, []) := by
  simp [BunPtyBridge.TerminalRegistry.write, BunPtyBridge.TerminalRegistry.resize,
    BunPtyBridge.TerminalRegistry.close, RouterTerm.TerminalRegistry.write,
    RouterTerm.TerminalRegistry.resize, RouterTerm.TerminalRegistry.close, hb, hr]

/-- C8 witness: unknown session id on concrete registries. -/
theorem c8_witness :
    ((BunPtyBridge.TerminalRegistry.mk
        [("t", BunPtyBridge.Session.mk [3] BunPtyBridge.Mode.bunPty false false)]).sessions.lookup "s"
      = none ∧
     (RouterTerm.TerminalRegistry.mk []).sessions.lookup "s" = none) ∧
    BunPtyBridge.TerminalRegistry.close
      (BunPtyBridge.TerminalRegistry.mk
        [("t", BunPtyBridge.Session.mk [3] BunPtyBridge.Mode.bunPty false false)]) "s"
      = (BunPtyBridge.TerminalRegistry.mk
          [("t", BunPtyBridge.Session.mk [3] BunPtyBridge.Mode.bunPty false false)], []) :=
  ⟨⟨by decide, rfl⟩,
    (c8_unknown_session_id_noop
      (BunPtyBridge.TerminalRegistry.mk
        [("t", BunPtyBridge.Session.mk [3] BunPtyBridge.Mode.bunPty false false)])
      (RouterTerm.TerminalRegistry.mk []) "s" "x" (by decide) rfl).2.2.1⟩

/-- Settlement histories concatenate. -/
theorem settlesFor_append (id : Nat) (a b : List SettleEvent) :
    settlesFor id (a ++ b) = settlesFor id a ++ settlesFor id b := by
  simp [settlesFor]

/-- Rejecting a duplicate-free batch of pending ids settles a member id
exactly once, with the shared error message. -/
theorem settlesFor_reject_map_mem (l : List Nat) (id : Nat) (msg : String)
    (hnd : l.Nodup) (hmem : id ∈ l) :
    settlesFor id (l.map (fun j => SettleEvent.rejected j msg))
      = [SettleEvent.rejected id msg] := by
  induction l with
  | nil => cases hmem
  | cons x xs ih =>
    rcases List.mem_cons.mp hmem with h | h
    · subst h
      have hx : id ∉ xs := (List.nodup_cons.mp hnd).1
      have : settlesFor id (xs.map (fun j => SettleEvent.rejected j msg)) = [] := by
        simp only [settlesFor, List.filter_eq_nil]
        intro e he
        simp only [List.mem_map] at he
        obtain ⟨j, hj, rfl⟩ := he
        simp [SettleEvent.reqId]
        exact fun h => hx (h ▸ hj)
      simp [settlesFor, SettleEvent.reqId] at this ⊢
      exact this
    · have hx : x ≠ id := by
        rintro rfl; exact (List.nodup_cons.mp hnd).1 h
      have := ih (List.nodup_cons.mp hnd).2 h
      simp only [List.map_cons, settlesFor, List.filter_cons] at this ⊢
      simp [SettleEvent.reqId, hx] at this ⊢
      exact this

/-- Rejecting a batch of pending ids records nothing for an id outside the
batch. -/
theorem settlesFor_reject_map_not_mem (l : List Nat) (id : Nat) (msg : String)
    (hmem : id ∉ l) :
    settlesFor id (l.map (fun j => SettleEvent.rejected j msg)) = [] := by
  simp only [settlesFor, List.filter_eq_nil_iff]
  intro e he
  simp only [List.mem_map] at he
  obtain ⟨j, hj, rfl⟩ := he
  simp [SettleEvent.reqId]
  exact fun h => hmem (h ▸ hj)

/-- C2: after `stop()` on the Bus Client (`UdsIpcClient`) and on the RPC
Client (`AppServerManager`), every request pending at that moment is
rejected exactly once (its settlement history is the single rejection with
the client's stop error), the pending map is empty, and a response frame or
line for one of those ids arriving afterwards leaves the client state —
settlement history included — completely unchanged. -/
theorem c2_stop_rejects_pending_exactly_once
    (u : IpcUds.UdsIpcClient) (a : AppServer.AppServerManager)
    (hu : u.Inv) (ha : a.Inv) :
    ((u.step IpcUds.Ev.stop).pending = [] ∧
     (∀ id ∈ u.pending,
        settlesFor id (u.step IpcUds.Ev.stop).settled
          = [SettleEvent.rejected id "ipc client stopped"]) ∧
     (∀ id, (u.step IpcUds.Ev.stop).step (IpcUds.Ev.responseArrives id)
          = u.step IpcUds.Ev.stop)) ∧
    ((a.step AppServer.Ev.stop).pending = [] ∧
     (∀ id ∈ a.pending,
        settlesFor id (a.step AppServer.Ev.stop).settled
          = [SettleEvent.rejected id "App server stopped"]) ∧
     (∀ id, (a.step AppServer.Ev.stop).step (AppServer.Ev.responseArrives id)
          = a.step AppServer.Ev.stop)) := by
  refine ⟨⟨?_, ?_, ?_⟩, ?_, ?_, ?_⟩
  · simp [IpcUds.UdsIpcClient.step, IpcUds.UdsIpcClient.rejectAllPending]
  · intro id hid
    simp only [IpcUds.UdsIpcClient.step, IpcUds.UdsIpcClient.rejectAllPending]
    rw [settlesFor_append, hu.2 id hid,
      settlesFor_reject_map_mem u.pending id _ hu.1 hid]
    simp
  · intro id
    simp [IpcUds.UdsIpcClient.step, IpcUds.UdsIpcClient.rejectAllPending]
  · simp [AppServer.AppServerManager.step, AppServer.AppServerManager.rejectAllPending]
  · intro id hid
    simp only [AppServer.AppServerManager.step, AppServer.AppServerManager.rejectAllPending]
    rw [settlesFor_append, ha.2 id hid,
      settlesFor_reject_map_mem a.pending id _ ha.1 hid]
    simp
  · intro id
    simp [AppServer.AppServerManager.step, AppServer.AppServerManager.rejectAllPending]

/-- C2 witness: concrete clients with two pending requests each. -/
theorem c2_witness :
    (IpcUds.UdsIpcClient.mk [1, 2] [] true true false true false 0 []).Inv ∧
    (AppServer.AppServerManager.mk [5, 6] [] true true false true "" []).Inv ∧
    settlesFor 1
      ((IpcUds.UdsIpcClient.mk [1, 2] [] true true false true false 0 []).step
        IpcUds.Ev.stop).settled
      = [SettleEvent.rejected 1 "ipc client stopped"] :=
  ⟨by decide, by decide,
    (c2_stop_rejects_pending_exactly_once
      (IpcUds.UdsIpcClient.mk [1, 2] [] true true false true false 0 [])
      (AppServer.AppServerManager.mk [5, 6] [] true true false true "" [])
      (by decide) (by decide)).1.2.1 1 (by decide)⟩

/-- C5: when the RPC Client's subprocess exits with three requests pending,
every pending future is rejected exactly once with the process-exited error,
the pending map becomes empty, `getState()` reports `connected = false`, the
process handle is dropped — and no event other than an explicit `start()`
(`startSpawns`) can bring a process back (no automatic restart). -/
theorem c5_process_exit_rejects_all
    (a : AppServer.AppServerManager) (x y z : Nat)
    (ha : a.Inv) (hp : a.pending = [x, y, z]) :
    (a.step AppServer.Ev.processExits).pending = [] ∧
    settlesFor x (a.step AppServer.Ev.processExits).settled
      = [SettleEvent.rejected x "App server process exited"] ∧
    settlesFor y (a.step AppServer.Ev.processExits).settled
      = [SettleEvent.rejected y "App server process exited"] ∧
    settlesFor z (a.step AppServer.Ev.processExits).settled
      = [SettleEvent.rejected z "App server process exited"] ∧
    (a.step AppServer.Ev.processExits).getState.connected = false ∧
    (a.step AppServer.Ev.processExits).proc = false ∧
    (∀ e : AppServer.Ev, e ≠ AppServer.Ev.startSpawns →
      ((a.step AppServer.Ev.processExits).step e).proc = false) := by
  have hx : x ∈ a.pending := by rw [hp]; simp
  have hy : y ∈ a.pending := by rw [hp]; simp
  have hz : z ∈ a.pending := by rw [hp]; simp
  refine ⟨?_, ?_, ?_, ?_, ?_, ?_, ?_⟩
  · simp [AppServer.AppServerManager.step, AppServer.AppServerManager.rejectAllPending]
  · simp only [AppServer.AppServerManager.step, AppServer.AppServerManager.rejectAllPending]
    rw [settlesFor_append, ha.2 x hx,
      settlesFor_reject_map_mem a.pending x _ ha.1 hx]
    simp
  · simp only [AppServer.AppServerManager.step, AppServer.AppServerManager.rejectAllPending]
    rw [settlesFor_append, ha.2 y hy,
      settlesFor_reject_map_mem a.pending y _ ha.1 hy]
    simp
  · simp only [AppServer.AppServerManager.step, AppServer.AppServerManager.rejectAllPending]
    rw [settlesFor_append, ha.2 z hz,
      settlesFor_reject_map_mem a.pending z _ ha.1 hz]
    simp
  · simp [AppServer.AppServerManager.step, AppServer.AppServerManager.rejectAllPending,
      AppServer.AppServerManager.getState]
  · simp [AppServer.AppServerManager.step, AppServer.AppServerManager.rejectAllPending]
  · intro e he
    cases e with
    | startSpawns => exact absurd rfl he
    | responseArrives id =>
      simp only [AppServer.AppServerManager.step, AppServer.AppServerManager.rejectAllPending]
      split <;> rfl
    | timeoutFires id =>
      simp only [AppServer.AppServerManager.step, AppServer.AppServerManager.rejectAllPending]
      split <;> rfl
    | _ =>
      simp [AppServer.AppServerManager.step, AppServer.AppServerManager.rejectAllPending]

/-- C5 witness: three concrete pending requests on a connected client. -/
theorem c5_witness :
    (AppServer.AppServerManager.mk [1, 2, 3] [] true true false true "" []).Inv ∧
    (AppServer.AppServerManager.mk [1, 2, 3] [] true true false true "" []).pending
      = [1, 2, 3] ∧
    ((AppServer.AppServerManager.mk [1, 2, 3] [] true true false true "" []).step
        AppServer.Ev.processExits).getState.connected = false :=
  ⟨by decide, rfl,
    (c5_process_exit_rejects_all
      (AppServer.AppServerManager.mk [1, 2, 3] [] true true false true "" [])
      1 2 3 (by decide) rfl).2.2.2.2.1⟩

/-- C6 counterexample: the claim says a response arriving after the timeout
for its id "is logged and discarded". On a concrete client whose only
pending request 7 has timed out, the late response is discarded (the state,
including the settlement history, is completely unchanged) but nothing is
ever logged: the log is still empty afterwards. Neither client logs in its
unmatched-response path (`UdsIpcClient._handleIncomingMessage` returns
silently; `AppServerManager._handleIncoming` falls through). -/
theorem c6_counterexample :
    ((IpcUds.UdsIpcClient.mk [7] [] true true false true false 0 []).step
        (IpcUds.Ev.timeoutFires 7)).step (IpcUds.Ev.responseArrives 7)
      = (IpcUds.UdsIpcClient.mk [7] [] true true false true false 0 []).step
          (IpcUds.Ev.timeoutFires 7) ∧
    (((IpcUds.UdsIpcClient.mk [7] [] true true false true false 0 []).step
        (IpcUds.Ev.timeoutFires 7)).step (IpcUds.Ev.responseArrives 7)).log = [] := by
  decide

/-- C6 (amended): for every correlated request of the Bus Client and the RPC
Client, when its deadline timer fires the pending entry is removed and the
caller's future is rejected exactly once with the timeout error; a response
arriving after the timeout for that id finds no pending entry and is
silently discarded — the state is unchanged and the future is never resolved
or rejected a second time. (The original claim's "is logged" does not hold:
see the counterexample.) -/
theorem c6_timeout_rejects_once_late_response_discarded
    (u : IpcUds.UdsIpcClient) (a : AppServer.AppServerManager) (i j : Nat)
    (hu : u.Inv) (hui : i ∈ u.pending)
    (ha : a.Inv) (haj : j ∈ a.pending) :
    (i ∉ (u.step (IpcUds.Ev.timeoutFires i)).pending ∧
     settlesFor i (u.step (IpcUds.Ev.timeoutFires i)).settled
       = [SettleEvent.rejected i "IPC request timeout"] ∧
     (u.step (IpcUds.Ev.timeoutFires i)).step (IpcUds.Ev.responseArrives i)
       = u.step (IpcUds.Ev.timeoutFires i)) ∧
    (j ∉ (a.step (AppServer.Ev.timeoutFires j)).pending ∧
     settlesFor j (a.step (AppServer.Ev.timeoutFires j)).settled
       = [SettleEvent.rejected j "app-server request timeout"] ∧
     (a.step (AppServer.Ev.timeoutFires j)).step (AppServer.Ev.responseArrives j)
       = a.step (AppServer.Ev.timeoutFires j)) := by
  have hiu : i ∉ u.pending.erase i := fun h => by
    have := (List.Nodup.mem_erase_iff hu.1).mp h
    exact this.1 rfl
  have hja : j ∉ a.pending.erase j := fun h => by
    have := (List.Nodup.mem_erase_iff ha.1).mp h
    exact this.1 rfl
  refine ⟨⟨?_, ?_, ?_⟩, ?_, ?_, ?_⟩
  · simp only [IpcUds.UdsIpcClient.step, if_pos hui]
    exact hiu
  · simp only [IpcUds.UdsIpcClient.step, if_pos hui]
    rw [settlesFor_append, hu.2 i hui]
    simp [settlesFor, SettleEvent.reqId]
  · simp only [IpcUds.UdsIpcClient.step, if_pos hui]
    rw [if_neg hiu]
  · simp only [AppServer.AppServerManager.step, if_pos haj]
    exact hja
  · simp only [AppServer.AppServerManager.step, if_pos haj]
    rw [settlesFor_append, ha.2 j haj]
    simp [settlesFor, SettleEvent.reqId]
  · simp only [AppServer.AppServerManager.step, if_pos haj]
    rw [if_neg hja]

/-- C6 witness: concrete clients, each with one pending request. -/
theorem c6_witness :
    ((IpcUds.UdsIpcClient.mk [4] [] true true false true false 0 []).Inv ∧
     4 ∈ (IpcUds.UdsIpcClient.mk [4] [] true true false true false 0 []).pending ∧
     (AppServer.AppServerManager.mk [9] [] true true false true "" []).Inv ∧
     9 ∈ (AppServer.AppServerManager.mk [9] [] true true false true "" []).pending) ∧
    settlesFor 4
      ((IpcUds.UdsIpcClient.mk [4] [] true true false true false 0 []).step
        (IpcUds.Ev.timeoutFires 4)).settled
      = [SettleEvent.rejected 4 "IPC request timeout"] :=
  ⟨⟨by decide, by decide, by decide, by decide⟩,
    (c6_timeout_rejects_once_late_response_discarded
      (IpcUds.UdsIpcClient.mk [4] [] true true false true false 0 [])
      (AppServer.AppServerManager.mk [9] [] true true false true "" [])
      4 9 (by decide) (by decide) (by decide) (by decide)).1.2.1⟩

/-- C9: on the Bus Client's socket `close` (the failure path — a socket
`error` only logs and is always followed by `close`), every outstanding
pending request is rejected with the single stable error
"ipc socket closed" and the pending map is emptied; then, unless `stop()`
was called, exactly one reconnect attempt is scheduled (the schedule counter
advances by one and the timer is armed); when the client is stopped nothing
is scheduled; and while a reconnect timer is already in flight the single
in-flight guard in `_scheduleReconnect` never schedules a second one. -/
theorem c9_socket_close_reject_and_single_reconnect
    (u : IpcUds.UdsIpcClient) (hu : u.Inv) :
    (u.step IpcUds.Ev.socketCloses).pending = [] ∧
    (∀ id ∈ u.pending,
       settlesFor id (u.step IpcUds.Ev.socketCloses).settled
         = [SettleEvent.rejected id "ipc socket closed"]) ∧
    (u.stopped = false → u.reconnectTimer = false →
       (u.step IpcUds.Ev.socketCloses).reconnectTimer = true ∧
       (u.step IpcUds.Ev.socketCloses).reconnectsScheduled
         = u.reconnectsScheduled + 1) ∧
    (u.stopped = true →
       (u.step IpcUds.Ev.socketCloses).reconnectTimer = u.reconnectTimer ∧
       (u.step IpcUds.Ev.socketCloses).reconnectsScheduled = u.reconnectsScheduled) ∧
    (u.reconnectTimer = true →
       (u.step IpcUds.Ev.socketCloses).reconnectTimer = true ∧
       (u.step IpcUds.Ev.socketCloses).reconnectsScheduled = u.reconnectsScheduled) ∧
    (∀ v : IpcUds.UdsIpcClient, v.reconnectTimer = true →
       v.scheduleReconnect = v) := by
  refine ⟨?_, ?_, ?_, ?_, ?_, ?_⟩
  · simp only [IpcUds.UdsIpcClient.step, IpcUds.UdsIpcClient.rejectAllPending,
      IpcUds.UdsIpcClient.scheduleReconnect]
    split
    · rfl
    · split <;> rfl
  · intro id hid
    simp only [IpcUds.UdsIpcClient.step, IpcUds.UdsIpcClient.rejectAllPending,
      IpcUds.UdsIpcClient.scheduleReconnect]
    have hbase :
        settlesFor id
          (u.settled ++ u.pending.map (fun j => SettleEvent.rejected j "ipc socket closed"))
          = [SettleEvent.rejected id "ipc socket closed"] := by
      rw [settlesFor_append, hu.2 id hid,
        settlesFor_reject_map_mem u.pending id _ hu.1 hid]
      simp
    split
    · exact hbase
    · split <;> exact hbase
  · intro hs hr
    simp [IpcUds.UdsIpcClient.step, IpcUds.UdsIpcClient.rejectAllPending,
      IpcUds.UdsIpcClient.scheduleReconnect, hs, hr]
  · intro hs
    simp [IpcUds.UdsIpcClient.step, IpcUds.UdsIpcClient.rejectAllPending,
      IpcUds.UdsIpcClient.scheduleReconnect, hs]
  · intro hr
    simp [IpcUds.UdsIpcClient.step, IpcUds.UdsIpcClient.rejectAllPending,
      IpcUds.UdsIpcClient.scheduleReconnect, hr]
  · intro v hv
    simp [IpcUds.UdsIpcClient.scheduleReconnect, hv]

/-- C9 witness: concrete running client with one pending request. -/
theorem c9_witness :
    (IpcUds.UdsIpcClient.mk [3] [] true true false true false 0 []).Inv ∧
    ((IpcUds.UdsIpcClient.mk [3] [] true true false true false 0 []).step
        IpcUds.Ev.socketCloses).pending = [] :=
  ⟨by decide,
    (c9_socket_close_reject_and_single_reconnect
      (IpcUds.UdsIpcClient.mk [3] [] true true false true false 0 [])
      (by decide)).1⟩

/-- C10: when `_write` (Bus Client) or `_sendJson` (RPC Client) throws
synchronously inside `sendRequest`, the `catch` block makes the call atomic:
the just-added pending entry is removed (the pending map is exactly what it
was before the call, and the deadline timer is cleared with it), and the
returned future is rejected exactly once with the write error. -/
theorem c10_sync_write_failure_atomic
    (u : IpcUds.UdsIpcClient) (a : AppServer.AppServerManager)
    (i j : Nat) (msgU msgA : String)
    (hui : i ∉ u.pending) (hus : settlesFor i u.settled = [])
    (haj : j ∉ a.pending) (has : settlesFor j a.settled = []) :
    ((u.step (IpcUds.Ev.sendRequestWriteFails i msgU)).pending = u.pending ∧
     settlesFor i (u.step (IpcUds.Ev.sendRequestWriteFails i msgU)).settled
       = [SettleEvent.rejected i msgU]) ∧
    ((a.step (AppServer.Ev.sendRequestWriteFails j msgA)).pending = a.pending ∧
     settlesFor j (a.step (AppServer.Ev.sendRequestWriteFails j msgA)).settled
       = [SettleEvent.rejected j msgA]) := by
  have herU : (u.pending ++ [i]).erase i = u.pending := by
    rw [List.erase_append_right _ hui, List.erase_cons_head]
    simp
  have herA : (a.pending ++ [j]).erase j = a.pending := by
    rw [List.erase_append_right _ haj, List.erase_cons_head]
    simp
  refine ⟨⟨?_, ?_⟩, ?_, ?_⟩
  · simp only [IpcUds.UdsIpcClient.step]
    exact herU
  · simp only [IpcUds.UdsIpcClient.step]
    rw [settlesFor_append, hus]
    simp [settlesFor, SettleEvent.reqId]
  · simp only [AppServer.AppServerManager.step]
    exact herA
  · simp only [AppServer.AppServerManager.step]
    rw [settlesFor_append, has]
    simp [settlesFor, SettleEvent.reqId]

/-- C10 witness: concrete clients, fresh request ids, concrete write errors. -/
theorem c10_witness :
    (8 ∉ (IpcUds.UdsIpcClient.mk [1] [] true true false true false 0 []).pending ∧
     settlesFor 8 (IpcUds.UdsIpcClient.mk [1] [] true true false true false 0 []).settled = [] ∧
     9 ∉ (AppServer.AppServerManager.mk [] [] false false false false "" []).pending ∧
     settlesFor 9 (AppServer.AppServerManager.mk [] [] false false false false "" []).settled = []) ∧
    ((IpcUds.UdsIpcClient.mk [1] [] true true false true false 0 []).step
        (IpcUds.Ev.sendRequestWriteFails 8 "IPC socket is not connected")).pending = [1] :=
  ⟨⟨by decide, by decide, by decide, by decide⟩,
    (c10_sync_write_failure_atomic
      (IpcUds.UdsIpcClient.mk [1] [] true true false true false 0 [])
      (AppServer.AppServerManager.mk [] [] false false false false "" [])
      8 9 "IPC socket is not connected" "App server stdin is not writable"
      (by decide) (by decide) (by decide) (by decide)).1.1⟩

/-- Out-of-fuel shape of the decode loop (never reached from `runLoop`). -/
theorem pushLoop_zero {α : Type} (parse : List Nat → Option α) (maxF : Nat)
    (buf : List Nat) (cur : Option Nat) :
    IpcUds.pushLoop parse maxF 0 buf cur = .ok ([], buf, cur) := rfl

/-- One step of the decode loop in the length-unknown phase with a full
4-byte prefix available. -/
theorem pushLoop_succ_cons4 {α : Type} (parse : List Nat → Option α) (maxF : Nat)
    (f b0 b1 b2 b3 : Nat) (rest : List Nat) :
    IpcUds.pushLoop parse maxF (f + 1) (b0 :: b1 :: b2 :: b3 :: rest) none
      = if IpcUds.readUInt32LE b0 b1 b2 b3 > maxF then
          .error "IPC frame exceeded limit"
        else
          IpcUds.pushLoop parse maxF f rest
            (some (IpcUds.readUInt32LE b0 b1 b2 b3)) := rfl

/-- The decode loop breaks in the length-unknown phase with fewer than 4
buffered bytes. -/
theorem pushLoop_succ_short {α : Type} (parse : List Nat → Option α) (maxF : Nat)
    (f : Nat) (buf : List Nat) (h : buf.length < 4) :
    IpcUds.pushLoop parse maxF (f + 1) buf none = .ok ([], buf, none) := by
  rcases buf with _ | ⟨b0, _ | ⟨b1, _ | ⟨b2, _ | ⟨b3, rest⟩⟩⟩⟩
  · rfl
  · rfl
  · rfl
  · rfl
  · simp at h; omega

/-- One step of the decode loop in the length-known phase. -/
theorem pushLoop_succ_some {α : Type} (parse : List Nat → Option α) (maxF : Nat)
    (f len : Nat) (buf : List Nat) :
    IpcUds.pushLoop parse maxF (f + 1) buf (some len)
      = if buf.length < len then
          .ok ([], buf, some len)
        else
          match parse (buf.take len) with
          | none => .error "Invalid IPC JSON frame"
          | some v =>
            match IpcUds.pushLoop parse maxF f (buf.drop len) none with
            | .ok (ms, b, c) => .ok (v :: ms, b, c)
            | .error e => .error e := rfl

/-- One more unit of fuel than `decodeFuel` changes nothing: `decodeFuel` is
sufficient for the decode loop to run to its natural break point. -/
theorem pushLoop_fuel_succ {α : Type} (parse : List Nat → Option α) (maxF : Nat) :
    ∀ f buf cur, IpcUds.decodeFuel buf cur ≤ f →
      IpcUds.pushLoop parse maxF (f + 1) buf cur
        = IpcUds.pushLoop parse maxF f buf cur := by
  intro f
  induction f using Nat.strong_induction_on with
  | _ f ih =>
    intro buf cur hf
    cases cur with
    | none =>
      rcases buf with _ | ⟨b0, _ | ⟨b1, _ | ⟨b2, _ | ⟨b3, rest⟩⟩⟩⟩
      · cases f <;> rfl
      · cases f with
        | zero => simp [IpcUds.decodeFuel] at hf
        | succ g => rw [pushLoop_succ_short _ _ _ _ (by simp),
            pushLoop_succ_short _ _ _ _ (by simp)]
      · cases f with
        | zero => simp [IpcUds.decodeFuel] at hf
        | succ g => rw [pushLoop_succ_short _ _ _ _ (by simp),
            pushLoop_succ_short _ _ _ _ (by simp)]
      · cases f with
        | zero => simp [IpcUds.decodeFuel] at hf
        | succ g => rw [pushLoop_succ_short _ _ _ _ (by simp),
            pushLoop_succ_short _ _ _ _ (by simp)]
      · obtain ⟨g, rfl⟩ : ∃ g, f = g + 1 :=
          ⟨f - 1, by simp [IpcUds.decodeFuel] at hf; omega⟩
        rw [pushLoop_succ_cons4, pushLoop_succ_cons4]
        split
        · rfl
        · exact ih g (by omega) rest (some _)
            (by simp [IpcUds.decodeFuel] at hf ⊢; omega)
    | some len =>
      by_cases hb : buf.length < len
      · cases f with
        | zero => simp [IpcUds.decodeFuel] at hf
        | succ g => rw [pushLoop_succ_some, pushLoop_succ_some,
            if_pos hb, if_pos hb]
      · obtain ⟨g, rfl⟩ : ∃ g, f = g + 1 :=
          ⟨f - 1, by simp [IpcUds.decodeFuel] at hf; omega⟩
        rw [pushLoop_succ_some, pushLoop_succ_some, if_neg hb, if_neg hb]
        cases hp : parse (buf.take len) with
        | none => rfl
        | some v =>
          rw [ih g (by omega) (buf.drop len) none
            (by simp [IpcUds.decodeFuel] at hf ⊢; omega)]

/-- Any fuel at least `decodeFuel` computes the canonical decode-loop run. -/
theorem pushLoop_eq_runLoop {α : Type} (parse : List Nat → Option α) (maxF : Nat)
    (f : Nat) (buf : List Nat) (cur : Option Nat)
    (h : IpcUds.decodeFuel buf cur ≤ f) :
    IpcUds.pushLoop parse maxF f buf cur = IpcUds.runLoop parse maxF buf cur := by
  obtain ⟨k, rfl⟩ : ∃ k, f = IpcUds.decodeFuel buf cur + k :=
    ⟨f - IpcUds.decodeFuel buf cur, by omega⟩
  induction k with
  | zero => rfl
  | succ k ihk =>
    have hstep : IpcUds.decodeFuel buf cur + (k + 1)
        = (IpcUds.decodeFuel buf cur + k) + 1 := by omega
    rw [hstep, pushLoop_fuel_succ _ _ _ _ _ (by omega), ihk (by omega)]

/-- The decode loop breaks immediately on a quiescent state. -/
theorem runLoop_quies {α : Type} (parse : List Nat → Option α) (maxF : Nat)
    (buf : List Nat) (cur : Option Nat) (h : IpcUds.Quies buf cur) :
    IpcUds.runLoop parse maxF buf cur = .ok ([], buf, cur) := by
  cases cur with
  | none =>
    have h4 : buf.length < 4 := h
    show IpcUds.pushLoop parse maxF (IpcUds.decodeFuel buf none) buf none = _
    have : IpcUds.decodeFuel buf none = (buf.length + 1) + 1 := by
      simp [IpcUds.decodeFuel]
    rw [this, pushLoop_succ_short _ _ _ _ h4]
  | some len =>
    have hl : buf.length < len := h
    show IpcUds.pushLoop parse maxF (IpcUds.decodeFuel buf (some len)) buf (some len) = _
    have : IpcUds.decodeFuel buf (some len) = (buf.length + 2) + 1 := by
      simp [IpcUds.decodeFuel]
    rw [this, pushLoop_succ_some, if_pos hl]

/-- Canonical unfolding of the decode loop with a full prefix available. -/
theorem runLoop_cons4 {α : Type} (parse : List Nat → Option α) (maxF : Nat)
    (b0 b1 b2 b3 : Nat) (rest : List Nat) :
    IpcUds.runLoop parse maxF (b0 :: b1 :: b2 :: b3 :: rest) none
      = if IpcUds.readUInt32LE b0 b1 b2 b3 > maxF then
          .error "IPC frame exceeded limit"
        else
          IpcUds.runLoop parse maxF rest
            (some (IpcUds.readUInt32LE b0 b1 b2 b3)) := by
  have h1 : IpcUds.runLoop parse maxF (b0 :: b1 :: b2 :: b3 :: rest) none
      = IpcUds.pushLoop parse maxF ((rest.length + 5) + 1)
          (b0 :: b1 :: b2 :: b3 :: rest) none := by
    rw [pushLoop_eq_runLoop]
    simp [IpcUds.decodeFuel]
  rw [h1, pushLoop_succ_cons4]
  split
  · rfl
  · rw [pushLoop_eq_runLoop]
    simp [IpcUds.decodeFuel]

/-- Canonical unfolding of the decode loop with a known length and enough
buffered bytes: the payload is split off, parsed, and prepended. -/
theorem runLoop_some_consume {α : Type} (parse : List Nat → Option α) (maxF : Nat)
    (len : Nat) (buf : List Nat) (h : ¬ buf.length < len) :
    IpcUds.runLoop parse maxF buf (some len)
      = match parse (buf.take len) with
        | none => .error "Invalid IPC JSON frame"
        | some v =>
          Except.map (fun p => (v :: p.1, p.2))
            (IpcUds.runLoop parse maxF (buf.drop len) none) := by
  have h1 : IpcUds.runLoop parse maxF buf (some len)
      = IpcUds.pushLoop parse maxF ((buf.length + 2) + 1) buf (some len) := by
    rw [pushLoop_eq_runLoop]
    simp [IpcUds.decodeFuel]
  rw [h1, pushLoop_succ_some, if_neg h]
  cases hp : parse (buf.take len) with
  | none => rfl
  | some v =>
    rw [pushLoop_eq_runLoop]
    · cases IpcUds.runLoop parse maxF (buf.drop len) none with
      | ok p => cases p with | mk ms r => rfl
      | error e => rfl
    · simp [IpcUds.decodeFuel]

/-- A successful decode-loop run ends in a quiescent state and can only
shrink the buffer (fueled auxiliary form). -/
theorem runLoop_ok_quies_aux {α : Type} (parse : List Nat → Option α) (maxF : Nat) :
    ∀ n buf cur, IpcUds.decodeFuel buf cur ≤ n →
      ∀ ms b c, IpcUds.runLoop parse maxF buf cur = .ok (ms, b, c) →
        IpcUds.Quies b c ∧ b.length ≤ buf.length := by
  intro n
  induction n with
  | zero =>
    intro buf cur h
    cases cur <;> simp [IpcUds.decodeFuel] at h
  | succ n ihn =>
    intro buf cur h ms b c hrun
    cases cur with
    | none =>
      rcases buf with _ | ⟨b0, _ | ⟨b1, _ | ⟨b2, _ | ⟨b3, rest⟩⟩⟩⟩
      · rw [runLoop_quies _ _ _ _ (by simp [IpcUds.Quies])] at hrun
        simp only [Except.ok.injEq, Prod.mk.injEq] at hrun
        obtain ⟨-, rfl, rfl⟩ := hrun
        exact ⟨by simp [IpcUds.Quies], le_refl _⟩
      · rw [runLoop_quies _ _ _ _ (by simp [IpcUds.Quies])] at hrun
        simp only [Except.ok.injEq, Prod.mk.injEq] at hrun
        obtain ⟨-, rfl, rfl⟩ := hrun
        exact ⟨by simp [IpcUds.Quies], le_refl _⟩
      · rw [runLoop_quies _ _ _ _ (by simp [IpcUds.Quies])] at hrun
        simp only [Except.ok.injEq, Prod.mk.injEq] at hrun
        obtain ⟨-, rfl, rfl⟩ := hrun
        exact ⟨by simp [IpcUds.Quies], le_refl _⟩
      · rw [runLoop_quies _ _ _ _ (by simp [IpcUds.Quies])] at hrun
        simp only [Except.ok.injEq, Prod.mk.injEq] at hrun
        obtain ⟨-, rfl, rfl⟩ := hrun
        exact ⟨by simp [IpcUds.Quies], le_refl _⟩
      · rw [runLoop_cons4] at hrun
        by_cases hover : IpcUds.readUInt32LE b0 b1 b2 b3 > maxF
        · rw [if_pos hover] at hrun
          cases hrun
        · rw [if_neg hover] at hrun
          have hfuel : IpcUds.decodeFuel rest
              (some (IpcUds.readUInt32LE b0 b1 b2 b3)) ≤ n := by
            simp [IpcUds.decodeFuel] at h ⊢
            omega
          have := ihn rest _ hfuel ms b c hrun
          refine ⟨this.1, le_trans this.2 (by simp; omega)⟩
    | some len =>
      by_cases hb : buf.length < len
      · rw [runLoop_quies _ _ _ _ (by exact hb)] at hrun
        simp only [Except.ok.injEq, Prod.mk.injEq] at hrun
        obtain ⟨-, rfl, rfl⟩ := hrun
        exact ⟨by exact hb, le_refl _⟩
      · rw [runLoop_some_consume _ _ _ _ hb] at hrun
        cases hp : parse (buf.take len) with
        | none => rw [hp] at hrun; cases hrun
        | some v =>
          rw [hp] at hrun
          cases hrest : IpcUds.runLoop parse maxF (buf.drop len) none with
          | error e => rw [hrest] at hrun; cases hrun
          | ok p =>
            rw [hrest] at hrun
            obtain ⟨ms2, b2, c2⟩ := p
            simp only [Except.map, Except.ok.injEq, Prod.mk.injEq] at hrun
            obtain ⟨-, hb2, hc2⟩ := hrun
            have hfuel : IpcUds.decodeFuel (buf.drop len) none ≤ n := by
              simp [IpcUds.decodeFuel] at h ⊢
              omega
            have hih := ihn (buf.drop len) none hfuel ms2 b2 c2 hrest
            rw [← hb2, ← hc2]
            refine ⟨hih.1, le_trans hih.2 ?_⟩
            rw [List.length_drop]
            exact Nat.sub_le _ _

/-- A successful decode-loop run ends in a quiescent state and can only
shrink the buffer. -/
theorem runLoop_ok_quies {α : Type} (parse : List Nat → Option α) (maxF : Nat)
    (buf : List Nat) (cur : Option Nat) (ms : List α) (b : List Nat)
    (c : Option Nat) (hrun : IpcUds.runLoop parse maxF buf cur = .ok (ms, b, c)) :
    IpcUds.Quies b c ∧ b.length ≤ buf.length :=
  runLoop_ok_quies_aux parse maxF (IpcUds.decodeFuel buf cur) buf cur
    (le_refl _) ms b c hrun

/-- Appending further bytes to the buffer of a successful decode-loop run
continues decoding from the leftover state: the messages decoded from the
prefix are emitted first, then decoding proceeds on the leftovers plus the
new bytes (fueled auxiliary form). -/
theorem runLoop_append_ok_aux {α : Type} (parse : List Nat → Option α) (maxF : Nat) :
    ∀ n buf cur, IpcUds.decodeFuel buf cur ≤ n →
      ∀ ms b c, IpcUds.runLoop parse maxF buf cur = .ok (ms, b, c) →
        ∀ extra, IpcUds.runLoop parse maxF (buf ++ extra) cur
          = Except.map (fun p => (ms ++ p.1, p.2))
              (IpcUds.runLoop parse maxF (b ++ extra) c) := by
  intro n
  induction n with
  | zero =>
    intro buf cur h
    cases cur <;> simp [IpcUds.decodeFuel] at h
  | succ n ihn =>
    intro buf cur h ms b c hrun extra
    have hterm : IpcUds.Quies buf cur →
        IpcUds.runLoop parse maxF (buf ++ extra) cur
          = Except.map (fun p => (ms ++ p.1, p.2))
              (IpcUds.runLoop parse maxF (b ++ extra) c) := by
      intro hq
      rw [runLoop_quies _ _ _ _ hq] at hrun
      simp only [Except.ok.injEq, Prod.mk.injEq] at hrun
      obtain ⟨hms, rfl, rfl⟩ := hrun
      cases hx : IpcUds.runLoop parse maxF (buf ++ extra) cur with
      | ok p => simp [Except.map, ← hms]
      | error e => simp [Except.map]
    cases cur with
    | none =>
      rcases buf with _ | ⟨b0, _ | ⟨b1, _ | ⟨b2, _ | ⟨b3, rest⟩⟩⟩⟩
      · exact hterm (by simp [IpcUds.Quies])
      · exact hterm (by simp [IpcUds.Quies])
      · exact hterm (by simp [IpcUds.Quies])
      · exact hterm (by simp [IpcUds.Quies])
      · rw [runLoop_cons4] at hrun
        by_cases hover : IpcUds.readUInt32LE b0 b1 b2 b3 > maxF
        · rw [if_pos hover] at hrun
          cases hrun
        · rw [if_neg hover] at hrun
          have hfuel : IpcUds.decodeFuel rest
              (some (IpcUds.readUInt32LE b0 b1 b2 b3)) ≤ n := by
            simp [IpcUds.decodeFuel] at h ⊢
            omega
          have hcons : (b0 :: b1 :: b2 :: b3 :: rest) ++ extra
              = b0 :: b1 :: b2 :: b3 :: (rest ++ extra) := by simp
          rw [hcons, runLoop_cons4, if_neg hover]
          exact ihn rest _ hfuel ms b c hrun extra
    | some len =>
      by_cases hb : buf.length < len
      · exact hterm (by exact hb)
      · rw [runLoop_some_consume _ _ _ _ hb] at hrun
        cases hp : parse (buf.take len) with
        | none => rw [hp] at hrun; cases hrun
        | some v =>
          rw [hp] at hrun
          cases hrest : IpcUds.runLoop parse maxF (buf.drop len) none with
          | error e => rw [hrest] at hrun; cases hrun
          | ok p =>
            rw [hrest] at hrun
            obtain ⟨ms2, b2, c2⟩ := p
            simp only [Except.map, Except.ok.injEq, Prod.mk.injEq] at hrun
            obtain ⟨hms, rfl, rfl⟩ := hrun
            have hble : len ≤ buf.length := by omega
            have hblen : ¬ (buf ++ extra).length < len := by
              simp
              omega
            rw [runLoop_some_consume _ _ _ _ hblen,
              List.take_append_of_le_length hble, hp,
              List.drop_append_of_le_length hble]
            have hfuel : IpcUds.decodeFuel (buf.drop len) none ≤ n := by
              simp [IpcUds.decodeFuel] at h ⊢
              omega
            rw [ihn (buf.drop len) none hfuel ms2 b2 c2 hrest extra]
            cases IpcUds.runLoop parse maxF (b2 ++ extra) c2 with
            | ok q => simp [Except.map, ← hms]
            | error e => simp [Except.map]

/-- Appending further bytes to the buffer of a failing decode-loop run
cannot mask the failure (fueled auxiliary form). -/
theorem runLoop_append_error_aux {α : Type} (parse : List Nat → Option α) (maxF : Nat) :
    ∀ n buf cur, IpcUds.decodeFuel buf cur ≤ n →
      ∀ e, IpcUds.runLoop parse maxF buf cur = .error e →
        ∀ extra, IpcUds.runLoop parse maxF (buf ++ extra) cur = .error e := by
  intro n
  induction n with
  | zero =>
    intro buf cur h
    cases cur <;> simp [IpcUds.decodeFuel] at h
  | succ n ihn =>
    intro buf cur h e hrun extra
    cases cur with
    | none =>
      rcases buf with _ | ⟨b0, _ | ⟨b1, _ | ⟨b2, _ | ⟨b3, rest⟩⟩⟩⟩
      · rw [runLoop_quies _ _ _ _ (by simp [IpcUds.Quies])] at hrun; cases hrun
      · rw [runLoop_quies _ _ _ _ (by simp [IpcUds.Quies])] at hrun; cases hrun
      · rw [runLoop_quies _ _ _ _ (by simp [IpcUds.Quies])] at hrun; cases hrun
      · rw [runLoop_quies _ _ _ _ (by simp [IpcUds.Quies])] at hrun; cases hrun
      · rw [runLoop_cons4] at hrun
        have hcons : (b0 :: b1 :: b2 :: b3 :: rest) ++ extra
            = b0 :: b1 :: b2 :: b3 :: (rest ++ extra) := by simp
        rw [hcons, runLoop_cons4]
        by_cases hover : IpcUds.readUInt32LE b0 b1 b2 b3 > maxF
        · rw [if_pos hover] at hrun ⊢
          exact hrun
        · rw [if_neg hover] at hrun ⊢
          have hfuel : IpcUds.decodeFuel rest
              (some (IpcUds.readUInt32LE b0 b1 b2 b3)) ≤ n := by
            simp [IpcUds.decodeFuel] at h ⊢
            omega
          exact ihn rest _ hfuel e hrun extra
    | some len =>
      by_cases hb : buf.length < len
      · rw [runLoop_quies _ _ _ _ (by exact hb)] at hrun; cases hrun
      · rw [runLoop_some_consume _ _ _ _ hb] at hrun
        have hble : len ≤ buf.length := by omega
        have hblen : ¬ (buf ++ extra).length < len := by
          simp
          omega
        rw [runLoop_some_consume _ _ _ _ hblen,
          List.take_append_of_le_length hble,
          List.drop_append_of_le_length hble]
        cases hp : parse (buf.take len) with
        | none => rw [hp] at hrun; exact hrun
        | some v =>
          rw [hp] at hrun
          cases hrest : IpcUds.runLoop parse maxF (buf.drop len) none with
          | ok p => rw [hrest] at hrun; simp [Except.map] at hrun
          | error e2 =>
            rw [hrest] at hrun
            simp only [Except.map, Except.error.injEq] at hrun
            subst hrun
            have hfuel : IpcUds.decodeFuel (buf.drop len) none ≤ n := by
              simp [IpcUds.decodeFuel] at h ⊢
              omega
            rw [ihn (buf.drop len) none hfuel e2 hrest extra]
            rfl

/-- Appending further bytes to a successful decode-loop run continues
decoding from the leftover state. -/
theorem runLoop_append_ok {α : Type} (parse : List Nat → Option α) (maxF : Nat)
    (buf : List Nat) (cur : Option Nat) (ms : List α) (b : List Nat)
    (c : Option Nat) (hrun : IpcUds.runLoop parse maxF buf cur = .ok (ms, b, c))
    (extra : List Nat) :
    IpcUds.runLoop parse maxF (buf ++ extra) cur
      = Except.map (fun p => (ms ++ p.1, p.2))
          (IpcUds.runLoop parse maxF (b ++ extra) c) :=
  runLoop_append_ok_aux parse maxF (IpcUds.decodeFuel buf cur) buf cur
    (le_refl _) ms b c hrun extra

/-- Appending further bytes cannot mask a decode-loop failure. -/
theorem runLoop_append_error {α : Type} (parse : List Nat → Option α) (maxF : Nat)
    (buf : List Nat) (cur : Option Nat) (e : String)
    (hrun : IpcUds.runLoop parse maxF buf cur = .error e) (extra : List Nat) :
    IpcUds.runLoop parse maxF (buf ++ extra) cur = .error e :=
  runLoop_append_error_aux parse maxF (IpcUds.decodeFuel buf cur) buf cur
    (le_refl _) e hrun extra

/-- Reading back a written 4-byte little-endian length recovers it for any
value below 2^32. -/
theorem readUInt32LE_writeUInt32LE (n : Nat) (h : n < 4294967296) :
    IpcUds.readUInt32LE (n % 256) (n / 256 % 256) (n / 65536 % 256)
      (n / 16777216 % 256) = n := by
  unfold IpcUds.readUInt32LE
  omega

/-- Decoding one encoded frame at the head of the byte stream emits its
payload and continues with the remaining bytes. -/
theorem runLoop_encodeFrame {α : Type} (parse : List Nat → Option α)
    (stringify : α → List Nat) (maxF : Nat) (v : α) (rest : List Nat)
    (hlen : (stringify v).length ≤ maxF)
    (hlt : (stringify v).length < 4294967296)
    (hrt : parse (stringify v) = some v) :
    IpcUds.runLoop parse maxF (IpcUds.encodeFrame stringify v ++ rest) none
      = Except.map (fun p => (v :: p.1, p.2))
          (IpcUds.runLoop parse maxF rest none) := by
  have hread := readUInt32LE_writeUInt32LE (stringify v).length hlt
  have hshape : IpcUds.encodeFrame stringify v ++ rest
      = ((stringify v).length % 256) :: ((stringify v).length / 256 % 256)
        :: ((stringify v).length / 65536 % 256)
        :: ((stringify v).length / 16777216 % 256)
        :: (stringify v ++ rest) := by
    simp [IpcUds.encodeFrame, IpcUds.writeUInt32LE]
  rw [hshape, runLoop_cons4, hread, if_neg (by omega)]
  have hnl : ¬ (stringify v ++ rest).length < (stringify v).length := by
    simp
  rw [runLoop_some_consume _ _ _ _ hnl]
  have htake : (stringify v ++ rest).take (stringify v).length = stringify v :=
    List.take_left _ _
  have hdrop : (stringify v ++ rest).drop (stringify v).length = rest :=
    List.drop_left _ _
  rw [htake, hdrop, hrt]

/-- Decoding the concatenation of encoded frames emits exactly the payload
list and ends with an empty, between-frames decoder state. -/
theorem runLoop_frames {α : Type} (parse : List Nat → Option α)
    (stringify : α → List Nat) (maxF : Nat)
    (hrt : ∀ v, parse (stringify v) = some v) (hmaxF : maxF < 4294967296) :
    ∀ vs : List α, (∀ v ∈ vs, (stringify v).length ≤ maxF) →
      IpcUds.runLoop parse maxF
        ((vs.map (IpcUds.encodeFrame stringify)).flatten) none
        = .ok (vs, [], none) := by
  intro vs
  induction vs with
  | nil =>
    intro _
    exact runLoop_quies _ _ _ _ (by simp [IpcUds.Quies])
  | cons v vs ihv =>
    intro hb
    have hv : (stringify v).length ≤ maxF := hb v (by simp)
    have hflat : ((v :: vs).map (IpcUds.encodeFrame stringify)).flatten
        = IpcUds.encodeFrame stringify v
            ++ (vs.map (IpcUds.encodeFrame stringify)).flatten := by
      simp
    rw [hflat, runLoop_encodeFrame parse stringify maxF v _ hv (by omega) (hrt v),
      ihv (fun w hw => hb w (by simp [hw]))]
    rfl

/-- Chunking is irrelevant: from a quiescent decoder state, pushing any
sequence of chunks whose total stays within the buffer ceiling produces
exactly the messages of the single decode-loop run over all the bytes, and
leaves the decoder in that run's leftover state. -/
theorem pushAll_of_runLoop {α : Type} (parse : List Nat → Option α)
    (maxF maxB : Nat) :
    ∀ (cs : List (List Nat)) (st : IpcUds.FrameDecoderState),
      IpcUds.Quies st.buffer st.currentFrameLength →
      st.buffer.length + (cs.map List.length).sum ≤ maxB →
      ∀ ms b c,
        IpcUds.runLoop parse maxF (st.buffer ++ cs.flatten)
            st.currentFrameLength = .ok (ms, b, c) →
        IpcUds.FrameDecoder.pushAll parse maxF maxB st cs = .ok (ms, ⟨b, c⟩) := by
  intro cs
  induction cs with
  | nil =>
    intro st hq _ ms b c hall
    simp only [List.flatten_nil, List.append_nil] at hall
    rw [runLoop_quies _ _ _ _ hq] at hall
    simp only [Except.ok.injEq, Prod.mk.injEq] at hall
    obtain ⟨rfl, rfl, rfl⟩ := hall
    rfl
  | cons c0 cs ihc =>
    intro st hq hbound ms b c hall
    by_cases hc0 : c0.length = 0
    · have hc0e : c0 = [] := List.length_eq_zero.mp hc0
      subst hc0e
      have hall2 : IpcUds.runLoop parse maxF (st.buffer ++ cs.flatten)
          st.currentFrameLength = .ok (ms, b, c) := by
        simpa using hall
      have hih := ihc st hq (by simpa using hbound) ms b c hall2
      have hstep : IpcUds.FrameDecoder.pushAll parse maxF maxB st ([] :: cs)
          = match IpcUds.FrameDecoder.pushAll parse maxF maxB st cs with
            | .error e => .error e
            | .ok (ms2, st2) => .ok (([] : List α) ++ ms2, st2) := rfl
      rw [hstep, hih]
      rfl
    · have hnb : ¬ maxB < st.buffer.length + c0.length := by
        simp only [List.map_cons, List.sum_cons] at hbound
        omega
      have hassoc : st.buffer ++ (c0 :: cs).flatten
          = (st.buffer ++ c0) ++ cs.flatten := by
        simp
      rw [hassoc] at hall
      cases h1 : IpcUds.runLoop parse maxF (st.buffer ++ c0)
          st.currentFrameLength with
      | error e =>
        rw [runLoop_append_error _ _ _ _ _ h1 cs.flatten] at hall
        cases hall
      | ok p =>
        obtain ⟨ms1, b1, c1⟩ := p
        rw [runLoop_append_ok _ _ _ _ _ _ _ h1 cs.flatten] at hall
        cases h2 : IpcUds.runLoop parse maxF (b1 ++ cs.flatten) c1 with
        | error e => rw [h2] at hall; cases hall
        | ok p2 =>
          obtain ⟨ms2, b2, c2⟩ := p2
          rw [h2] at hall
          simp only [Except.map, Except.ok.injEq, Prod.mk.injEq] at hall
          obtain ⟨rfl, rfl, rfl⟩ := hall
          have hqs := runLoop_ok_quies parse maxF _ _ _ _ _ h1
          have hb1 : b1.length ≤ st.buffer.length + c0.length := by
            have := hqs.2
            simpa using this
          have hih := ihc ⟨b1, c1⟩ hqs.1
            (by
              simp only [List.map_cons, List.sum_cons] at hbound
              simp only
              omega)
            ms2 b2 c2 (by simpa using h2)
          simp only [IpcUds.FrameDecoder.pushAll, IpcUds.FrameDecoder.push,
            if_neg hc0, if_neg hnb, h1, hih]

/-- C1: for every JSON-representable payload (abstracted as any `stringify`
and `parse` with `parse (stringify v) = some v`), pushing the bytes of
`encodeFrame` into a fresh `FrameDecoder` yields exactly the payload list —
for every way of splitting the bytes into successive `push` calls,
including splits mid-prefix and mid-payload, and including several complete
frames delivered in a single push (`vs` and `chunks` are arbitrary). The
payload bound keeps each frame within the decoder's frame ceiling and the
total within its buffer ceiling, which the default configuration satisfies
for all realistic payloads. -/
theorem c1_encode_decode_any_split {α : Type}
    (parse : List Nat → Option α) (stringify : α → List Nat)
    (hrt : ∀ v, parse (stringify v) = some v)
    (vs : List α)
    (hframe : ∀ v ∈ vs, (stringify v).length ≤ IpcUds.MAX_IPC_FRAME_BYTES)
    (hbuf : ((vs.map (IpcUds.encodeFrame stringify)).flatten).length
      ≤ IpcUds.MAX_IPC_BUFFER_BYTES)
    (chunks : List (List Nat))
    (hsplit : chunks.flatten = (vs.map (IpcUds.encodeFrame stringify)).flatten) :
    IpcUds.FrameDecoder.pushAll parse IpcUds.MAX_IPC_FRAME_BYTES
        IpcUds.MAX_IPC_BUFFER_BYTES IpcUds.FrameDecoderState.init chunks
      = .ok (vs, IpcUds.FrameDecoderState.init) := by
  have hframes := runLoop_frames parse stringify IpcUds.MAX_IPC_FRAME_BYTES hrt
    (by norm_num [IpcUds.MAX_IPC_FRAME_BYTES]) vs hframe
  have hq : IpcUds.Quies IpcUds.FrameDecoderState.init.buffer
      IpcUds.FrameDecoderState.init.currentFrameLength := by
    simp [IpcUds.FrameDecoderState.init, IpcUds.Quies]
  have hbound : IpcUds.FrameDecoderState.init.buffer.length
      + (chunks.map List.length).sum ≤ IpcUds.MAX_IPC_BUFFER_BYTES := by
    have hlen : (chunks.map List.length).sum = chunks.flatten.length :=
      (List.length_join chunks).symm
    simp only [IpcUds.FrameDecoderState.init, List.length_nil, Nat.zero_add, hlen,
      hsplit]
    exact hbuf
  have hrun : IpcUds.runLoop parse IpcUds.MAX_IPC_FRAME_BYTES
      (IpcUds.FrameDecoderState.init.buffer ++ chunks.flatten)
      IpcUds.FrameDecoderState.init.currentFrameLength = .ok (vs, [], none) := by
    simp only [IpcUds.FrameDecoderState.init, List.nil_append, hsplit]
    exact hframes
  exact pushAll_of_runLoop parse IpcUds.MAX_IPC_FRAME_BYTES
    IpcUds.MAX_IPC_BUFFER_BYTES chunks IpcUds.FrameDecoderState.init hq hbound
    vs [] none hrun

/-- C1 witness: the payload bytes `[104, 105]` encode to
`[2, 0, 0, 0, 104, 105]`; delivered as chunks `[2]`, `[0, 0]`, `[0, 104]`,
`[105]` (splits mid-prefix and mid-payload) a fresh decoder yields exactly
that payload and returns to the fresh state. -/
theorem c1_witness :
    ((∀ v : List Nat, some (id v) = some v) ∧
     (∀ v ∈ [[104, 105]], (id v).length ≤ IpcUds.MAX_IPC_FRAME_BYTES) ∧
     ((([[104, 105]] : List (List Nat)).map (IpcUds.encodeFrame id)).flatten).length
       ≤ IpcUds.MAX_IPC_BUFFER_BYTES ∧
     ([[2], [0, 0], [0, 104], [105]] : List (List Nat)).flatten
       = (([[104, 105]] : List (List Nat)).map (IpcUds.encodeFrame id)).flatten) ∧
    IpcUds.FrameDecoder.pushAll some IpcUds.MAX_IPC_FRAME_BYTES
        IpcUds.MAX_IPC_BUFFER_BYTES IpcUds.FrameDecoderState.init
        [[2], [0, 0], [0, 104], [105]]
      = .ok ([[104, 105]], IpcUds.FrameDecoderState.init) :=
  ⟨⟨fun v => rfl, by decide, by decide, by decide⟩,
    c1_encode_decode_any_split some id (fun v => rfl) [[104, 105]]
      (by decide) (by decide) [[2], [0, 0], [0, 104], [105]] (by decide)⟩

/-- C4: the decoder's two independent ceilings. (1) Frame ceiling: as soon
as the 4-byte length prefix is complete — here the arriving chunk completes
exactly the prefix, so not a single payload byte has ever been supplied —
a declared length above `maxFrameBytes` throws the frame-limit error: the
rejection needs no payload bytes and happens before any are buffered.
(2) Buffer ceiling: from any decoder state, including mid-frame states, a
chunk that would push the cumulative buffered-but-undecoded byte count past
`maxBufferBytes` throws the buffer-limit error (checked before the chunk is
appended). -/
theorem c4_frame_and_buffer_ceilings {α : Type} (parse : List Nat → Option α)
    (maxF maxB : Nat) :
    (∀ (buf chunk : List Nat) (b0 b1 b2 b3 : Nat),
       buf ++ chunk = [b0, b1, b2, b3] → chunk ≠ [] →
       buf.length + chunk.length ≤ maxB →
       maxF < IpcUds.readUInt32LE b0 b1 b2 b3 →
       IpcUds.FrameDecoder.push parse maxF maxB ⟨buf, none⟩ chunk
         = .error "IPC frame exceeded limit") ∧
    (∀ (st : IpcUds.FrameDecoderState) (chunk : List Nat), chunk ≠ [] →
       maxB < st.buffer.length + chunk.length →
       IpcUds.FrameDecoder.push parse maxF maxB st chunk
         = .error "IPC buffer exceeded limit") := by
  constructor
  · intro buf chunk b0 b1 b2 b3 hbc hne hle hover
    have hlen : ¬ chunk.length = 0 := by
      simpa using fun h => hne (List.length_eq_zero.mp h)
    show (if chunk.length = 0 then Except.ok ([], (⟨buf, none⟩ : IpcUds.FrameDecoderState))
      else if maxB < buf.length + chunk.length then
        Except.error "IPC buffer exceeded limit"
      else
        match IpcUds.runLoop parse maxF (buf ++ chunk) none with
        | .ok (ms, b, c) => Except.ok (ms, (⟨b, c⟩ : IpcUds.FrameDecoderState))
        | .error e => Except.error e) = Except.error "IPC frame exceeded limit"
    rw [if_neg hlen, if_neg (by omega), hbc, runLoop_cons4, if_pos (by omega)]
  · intro st chunk hne hover
    have hlen : ¬ chunk.length = 0 := by
      simpa using fun h => hne (List.length_eq_zero.mp h)
    simp only [IpcUds.FrameDecoder.push, if_neg hlen]
    rw [if_pos hover]

/-- C4 witness: (frame ceiling) a buffered half-prefix `[0, 0]` completed by
the chunk `[0, 32]` declares a frame of 536870912 bytes, above the default
256 MiB ceiling, and throws with no payload byte ever supplied;
(buffer ceiling) with a 3-byte buffer and `maxBufferBytes = 4`, a 2-byte
chunk throws the buffer-limit error. -/
theorem c4_witness :
    (([0, 0] ++ [0, 32] = [0, 0, 0, 32] ∧ ([0, 32] : List Nat) ≠ [] ∧
      ([0, 0] : List Nat).length + ([0, 32] : List Nat).length
        ≤ IpcUds.MAX_IPC_BUFFER_BYTES ∧
      IpcUds.MAX_IPC_FRAME_BYTES < IpcUds.readUInt32LE 0 0 0 32) ∧
     (([9, 9] : List Nat) ≠ [] ∧
      4 < ([1, 2, 3] : List Nat).length + ([9, 9] : List Nat).length)) ∧
    IpcUds.FrameDecoder.push (some : List Nat → Option (List Nat))
        IpcUds.MAX_IPC_FRAME_BYTES IpcUds.MAX_IPC_BUFFER_BYTES ⟨[0, 0], none⟩
        [0, 32] = .error "IPC frame exceeded limit" ∧
    IpcUds.FrameDecoder.push (some : List Nat → Option (List Nat))
        IpcUds.MAX_IPC_FRAME_BYTES 4 ⟨[1, 2, 3], none⟩ [9, 9]
      = .error "IPC buffer exceeded limit" :=
  ⟨⟨⟨by decide, by decide, by decide, by decide⟩, by decide, by decide⟩,
    (c4_frame_and_buffer_ceilings (some : List Nat → Option (List Nat))
        IpcUds.MAX_IPC_FRAME_BYTES IpcUds.MAX_IPC_BUFFER_BYTES).1
      [0, 0] [0, 32] 0 0 0 32 (by decide) (by decide) (by decide) (by decide),
    (c4_frame_and_buffer_ceilings (some : List Nat → Option (List Nat))
        IpcUds.MAX_IPC_FRAME_BYTES 4).2
      ⟨[1, 2, 3], none⟩ [9, 9] (by decide) (by decide)⟩
